import Mathlib

/-!
Verification of the ORCD rental-portal OIDC authentication backends
(`config/coldfront_auth.py`), as a shallow embedding in Lean 4.

Python strings that are split or suffix-tested are embedded as `List Char`
(abbreviated `Str`); strings that are only compared for equality (JWKS key
identifiers, algorithm labels, error messages) are embedded as Lean `String`.
Python `dict.get` of a possibly-absent field is embedded as `Option` plus
`getD` at each access site, mirroring the default argument used there.
The two outbound effects of `retrieve_matching_jwk` (the HTTP fetch of the
JWKS document and the unverified decode of the token header) are embedded
as input values describing their outcome.
-/

/-- Embedding of Python `str` where character-level structure matters. -/
abbrev Str := List Char

/-- Truthiness of an optional Python string: `None` and `""` are falsy. -/
def truthy : Option String → Bool
  | none => false
  | some s => !s.isEmpty

/-- One key-descriptor record of a JWKS document. `kid` and `alg` are read
with `dict.get` in the source and may be absent; `material` stands for the
key material fields (`n`, `e`, ...) that the selector never inspects. -/
structure JWK where
  kid : Option String
  alg : Option String
  material : String
deriving DecidableEq, Repr

/-- A parsed JWKS document: the source reads `jwks.get('keys', [])`, so the
`keys` field may be absent. -/
structure JwksDoc where
  keys : Option (List JWK)
deriving DecidableEq, Repr

/-- Outcome of `requests.get(jwks_url).json()`: a transport error
(`requests.RequestException`), a body that is not valid JSON (`ValueError`
from `.json()`), or a parsed document. -/
inductive FetchResult where
  | requestError
  | invalidJson
  | ok (doc : JwksDoc)
deriving DecidableEq, Repr

/-- The unverified token header: `kid` and `alg` read with `header.get`. -/
structure TokenHeader where
  kid : Option String
  alg : Option String
deriving DecidableEq, Repr

/-- Outcome of `jwt.get_unverified_header(token)`. -/
inductive HeaderResult where
  | decodeError
  | ok (h : TokenHeader)
deriving DecidableEq, Repr

/-- The exceptions the backend raises: Django `SuspiciousOperation` and
`PermissionDenied`, each carrying its message. -/
inductive AuthError where
  | suspiciousOperation (msg : String)
  | permissionDenied (msg : String)
deriving DecidableEq, Repr

def msgFetchFailed : String := "Could not fetch JWKS from identity provider"
def msgInvalidJwks : String := "Invalid JWKS response from identity provider"
def msgNoKeys : String := "JWKS contains no keys"
def msgBadHeader : String := "Could not decode ID token header"
def msgKeyNotFound : String := "Could not find matching JWKS key for ID token"
def msgMitRequired : String := "Authentication requires MIT credentials"
def msgNoIdentifier : String := "No valid identifier found in claims"

/-- The key-selection loop of `GlobusOIDCBackend.retrieve_matching_jwk`
(source lines 320-342): first key whose `kid` equals the header's truthy
`kid`; else the single key if exactly one; else the first key whose `alg`
equals the header's `alg`; else `SuspiciousOperation`. -/
def selectKey (keys : List JWK) (kid alg : Option String) : Except AuthError JWK :=
  match keys.find? (fun key => truthy kid && key.kid == kid) with
  | some key => .ok key
  | none =>
    if h : keys.length = 1 then
      .ok (keys.get ⟨0, by omega⟩)
    else
      match keys.find? (fun key => key.alg == alg) with
      | some key => .ok key
      | none => .error (.suspiciousOperation msgKeyNotFound)

/-- `GlobusOIDCBackend.retrieve_matching_jwk` (source lines 279-342), with
the fetch and header-decode outcomes supplied as values. The source checks
the fetch outcome, then emptiness of `keys`, then decodes the header, then
selects a key. -/
def retrieve_matching_jwk (fetch : FetchResult) (hdr : HeaderResult) :
    Except AuthError JWK :=
  match fetch with
  | .requestError => .error (.suspiciousOperation msgFetchFailed)
  | .invalidJson => .error (.suspiciousOperation msgInvalidJwks)
  | .ok doc =>
    let keys := doc.keys.getD []
    if keys.isEmpty then
      .error (.suspiciousOperation msgNoKeys)
    else
      match hdr with
      | .decodeError => .error (.suspiciousOperation msgBadHeader)
      | .ok header => selectKey keys header.kid header.alg

/-- Truthiness of an optional Python string embedded as `Str`. -/
def truthyStr : Option Str → Bool
  | none => false
  | some s => !s.isEmpty

/-- Python `str.split(sep)` for a one-character separator: always returns a
non-empty list of segments. -/
def pySplit (sep : Char) : Str → List Str
  | [] => [[]]
  | c :: cs =>
    if c = sep then [] :: pySplit sep cs
    else
      match pySplit sep cs with
      | [] => [[c]]
      | s :: rest => (c :: s) :: rest

/-- Python `str.split(sep, 1)`: split at the first occurrence only. -/
def pySplit1 (sep : Char) (s : Str) : List Str :=
  if sep ∈ s then
    [s.takeWhile (fun c => c != sep), (s.dropWhile (fun c => c != sep)).tail]
  else [s]

/-- `BaseOIDCBackend.get_username_from_email` (source lines 65-77):
`email.split('@')[0]` when the string is truthy and contains an `@`,
otherwise the input unchanged. -/
def get_username_from_email (email : Str) : Str :=
  if email ≠ [] ∧ '@' ∈ email then (pySplit '@' email).headD []
  else email

/-- One record of the `identity_set` claim; `username` is read with
`identity.get('username', '')` so it may be absent. -/
structure Identity where
  username : Option Str := none
deriving DecidableEq, Repr

/-- The OIDC claims mapping, restricted to the fields the backends read.
A field is `none` when the claim is absent from the mapping. -/
structure Claims where
  email : Option Str := none
  preferred_username : Option Str := none
  identity_set : Option (List Identity) := none
  given_name : Option Str := none
  family_name : Option Str := none
  name : Option Str := none
deriving DecidableEq, Repr

/-- The Django settings the Globus backend reads:
`getattr(settings, 'MIT_IDP_REQUIRED', False)`. -/
structure AuthSettings where
  mit_idp_required : Bool := false
deriving DecidableEq, Repr

/-- The institutional suffix `'@mit.edu'` tested with `str.endswith`. -/
def mitSuffix : Str := ("@mit.edu").toList

/-- `GlobusOIDCBackend.extract_mit_eppn` (source lines 219-249): first
identity whose username ends with `@mit.edu`; else fall back to
`claims.get('preferred_username', claims.get('email'))`. A found username
ends with the non-empty suffix and is therefore truthy, so the source's
`if not eppn` fallback fires exactly when the loop found no identity. -/
def extract_mit_eppn (claims : Claims) : Option Str :=
  match (claims.identity_set.getD []).find?
      (fun identity => mitSuffix.isSuffixOf (identity.username.getD [])) with
  | some identity => some (identity.username.getD [])
  | none =>
    match claims.preferred_username with
    | some p => some p
    | none => claims.email

/-- `GlobusOIDCBackend.validate_mit_identity` (source lines 251-277):
`True` when enforcement is off, else whether some identity's username ends
with `@mit.edu`. -/
def validate_mit_identity (s : AuthSettings) (claims : Claims) : Bool :=
  if !s.mit_idp_required then true
  else (claims.identity_set.getD []).any
    (fun identity => mitSuffix.isSuffixOf (identity.username.getD []))

/-- The observable fields of the Django user record the backends build. -/
structure PortalUser where
  username : Str
  email : Option Str
  first_name : Str
  last_name : Str
  is_active : Bool
deriving DecidableEq, Repr

/-- The name-setting block shared by both `create_user` bodies (source
lines 375-384): `given_name`/`family_name`, with a fallback that splits a
truthy `name` claim at the first space. -/
def set_names (claims : Claims) (u : PortalUser) : PortalUser :=
  let u := { u with
    first_name := claims.given_name.getD []
    last_name := claims.family_name.getD [] }
  if u.first_name = [] ∧ truthyStr claims.name then
    let parts := pySplit1 ' ' (claims.name.getD [])
    let u := { u with first_name := parts.headD [] }
    if hp : 1 < parts.length then { u with last_name := parts.get ⟨1, hp⟩ }
    else u
  else u

/-- The user record `GlobusOIDCBackend.create_user` saves: username and
email as computed, names from claims, `is_active = True`. -/
def finishUser (claims : Claims) (username : Str) (email : Option Str) : PortalUser :=
  { set_names claims
      { username := username, email := email,
        first_name := [], last_name := [], is_active := false }
    with is_active := true }

/-- `GlobusOIDCBackend.create_user` (source lines 344-396): reject unless
`validate_mit_identity`; derive the username from a truthy EPPN containing
`@`, else from a truthy email (`claims.get('email', eppn)`), else raise
`SuspiciousOperation`. -/
def globus_create_user (s : AuthSettings) (claims : Claims) :
    Except AuthError PortalUser :=
  if !validate_mit_identity s claims then
    .error (.permissionDenied msgMitRequired)
  else
    let eppn := extract_mit_eppn claims
    let email := match claims.email with
      | some e => some e
      | none => eppn
    if truthyStr eppn && (eppn.getD []).contains '@' then
      .ok (finishUser claims (get_username_from_email (eppn.getD [])) email)
    else if truthyStr email then
      .ok (finishUser claims (get_username_from_email (email.getD [])) email)
    else
      .error (.suspiciousOperation msgNoIdentifier)

/-- `GlobusOIDCBackend.update_user` (source lines 398-419): reject unless
`validate_mit_identity`; otherwise re-activate the user if needed and
return it. -/
def globus_update_user (s : AuthSettings) (user : PortalUser) (claims : Claims) :
    Except AuthError PortalUser :=
  if !validate_mit_identity s claims then
    .error (.permissionDenied msgMitRequired)
  else
    .ok (if !user.is_active then { user with is_active := true } else user)

/-- `BaseOIDCBackend.filter_users_by_claims` (source lines 146-170), with
the user table supplied as a list: match by email-derived username first,
then by exact email, else the empty query set. -/
def filter_users_by_claims (db : List PortalUser) (claims : Claims) :
    List PortalUser :=
  if truthyStr claims.email then
    let e := claims.email.getD []
    let username := get_username_from_email e
    let byUsername := db.filter (fun u => u.username == username)
    if byUsername ≠ [] then byUsername
    else
      let byEmail := db.filter (fun u => u.email == some e)
      if byEmail ≠ [] then byEmail
      else []
  else []

-- Concrete strings used in examples and witnesses.

def kidGlobus : String := "globus-key"
def kidOther : String := "other-key"
def algRS256 : String := "RS256"
def algRS512 : String := "RS512"
def matA : String := "material-a"
def matB : String := "material-b"
def uCnhMit : Str := ("cnh@mit.edu").toList
def uCnh : Str := ("cnh").toList
def uNoAt : Str := ("noatsign").toList
def uOther : Str := ("x@other.edu").toList

-- General helper lemmas.

/-- A present, non-empty string is truthy. -/
theorem truthy_some {s : String} (h : s ≠ "") : truthy (some s) = true := by
  have he : s.isEmpty = false := by
    rw [Bool.eq_false_iff]
    intro hc
    exact h ((String.isEmpty_iff s).mp hc)
  simp [truthy, he]

/-- `find?` returns the element at the first index satisfying the predicate. -/
theorem find_first_eq {α : Type} (p : α → Bool) (l : List α) :
    ∀ (i : Nat) (hi : i < l.length),
      p (l.get ⟨i, hi⟩) = true →
      (∀ j, ∀ hj : j < l.length, j < i → p (l.get ⟨j, hj⟩) = false) →
      l.find? p = some (l.get ⟨i, hi⟩) := by
  induction l with
  | nil => intro i hi; simp at hi
  | cons a t ih =>
    intro i hi hp hfirst
    cases i with
    | zero =>
      simp only [List.get] at hp ⊢
      simp [List.find?, hp]
    | succ n =>
      have ha : p a = false := hfirst 0 (Nat.succ_le_succ (Nat.zero_le _)) (Nat.succ_pos n)
      have hlt : n < t.length := Nat.lt_of_succ_lt_succ hi
      have hp' : p (t.get ⟨n, hlt⟩) = true := hp
      have hf' : ∀ j, ∀ hj : j < t.length, j < n → p (t.get ⟨j, hj⟩) = false := by
        intro j hj hjn
        exact hfirst (j + 1) (Nat.succ_lt_succ hj) (Nat.succ_lt_succ hjn)
      have hrec := ih n hlt hp' hf'
      simp [List.find?, ha, hrec]

/-- When no key passes the `kid` test, the first selection loop finds nothing. -/
theorem selectKey_no_kid_find (keys : List JWK) (kid : Option String)
    (hnokid : ∀ key ∈ keys, ¬(truthy kid = true ∧ key.kid = kid)) :
    keys.find? (fun key => truthy kid && key.kid == kid) = none := by
  rw [List.find?_eq_none]
  intro key hk hp
  rw [Bool.and_eq_true] at hp
  exact hnokid key hk ⟨hp.1, by simpa using hp.2⟩

/-- Unfolding `retrieve_matching_jwk` on a parsed document with keys. -/
theorem retrieve_ok_eq (keys : List JWK) (hne : keys ≠ []) (hdr : TokenHeader) :
    retrieve_matching_jwk (.ok ⟨some keys⟩) (.ok hdr) = selectKey keys hdr.kid hdr.alg := by
  have hemp : keys.isEmpty = false := by
    cases keys with
    | nil => exact absurd rfl hne
    | cons a t => rfl
  simp [retrieve_matching_jwk, hemp]

/-- The first selection loop succeeds on the first `kid` match. -/
theorem selectKey_kid_match (keys : List JWK) (s : String) (alg : Option String)
    (i : Nat) (hi : i < keys.length) (hs : s ≠ "")
    (hmatch : (keys.get ⟨i, hi⟩).kid = some s)
    (hfirst : ∀ j, ∀ hj : j < keys.length, j < i → (keys.get ⟨j, hj⟩).kid ≠ some s) :
    selectKey keys (some s) alg = .ok (keys.get ⟨i, hi⟩) := by
  have hfind : keys.find? (fun key => truthy (some s) && key.kid == some s)
      = some (keys.get ⟨i, hi⟩) := by
    apply find_first_eq
    · simp [truthy_some hs]
      exact hmatch
    · intro j hj hji
      simp [truthy_some hs]
      exact hfirst j hj hji
  simp [selectKey, hfind]

/-- C1: for every JWKS key list containing a record whose `kid` equals the
token header's non-empty `kid` (taking the first such record), the selector
returns that record, with no hypothesis whatsoever on the record's declared
`alg` versus the header's `alg`. -/
theorem retrieve_matching_jwk_returns_kid_match
    (keys : List JWK) (hdr : TokenHeader) (s : String) (i : Nat) (hi : i < keys.length)
    (hkid : hdr.kid = some s) (hs : s ≠ "")
    (hmatch : (keys.get ⟨i, hi⟩).kid = some s)
    (hfirst : ∀ j, ∀ hj : j < keys.length, j < i → (keys.get ⟨j, hj⟩).kid ≠ some s) :
    retrieve_matching_jwk (.ok ⟨some keys⟩) (.ok hdr) = .ok (keys.get ⟨i, hi⟩) := by
  have hne : keys ≠ [] := by
    intro h
    subst h
    simp at hi
  rw [retrieve_ok_eq keys hne hdr, hkid]
  exact selectKey_kid_match keys s hdr.alg i hi hs hmatch hfirst

/-- Witness for C1: two keys; the header names the first key's `kid` but an
algorithm (`RS512`) different from that key's declared `RS256`; the `kid`
match is returned anyway. -/
theorem retrieve_matching_jwk_returns_kid_match_witness :
    retrieve_matching_jwk
        (.ok ⟨some [⟨some kidGlobus, some algRS256, matA⟩,
                    ⟨some kidOther, some algRS512, matB⟩]⟩)
        (.ok ⟨some kidGlobus, some algRS512⟩)
      = .ok ⟨some kidGlobus, some algRS256, matA⟩ :=
  retrieve_matching_jwk_returns_kid_match
    [⟨some kidGlobus, some algRS256, matA⟩, ⟨some kidOther, some algRS512, matB⟩]
    ⟨some kidGlobus, some algRS512⟩ kidGlobus 0 (by decide) rfl (by decide) rfl
    (by intro j hj hj0; omega)

/-- C2: a JWKS document with exactly one key whose `kid` does not match the
header's `kid` still yields that single key. -/
theorem retrieve_matching_jwk_single_key
    (k : JWK) (hdr : TokenHeader)
    (hnomatch : ¬(truthy hdr.kid = true ∧ k.kid = hdr.kid)) :
    retrieve_matching_jwk (.ok ⟨some [k]⟩) (.ok hdr) = .ok k := by
  rw [retrieve_ok_eq [k] (by simp) hdr]
  have hp : (truthy hdr.kid && (k.kid == hdr.kid)) = false := by
    by_cases ht : truthy hdr.kid = true
    · have hne : k.kid ≠ hdr.kid := fun he => hnomatch ⟨ht, he⟩
      simp [ht, hne]
    · rw [Bool.not_eq_true] at ht
      simp [ht]
  simp [selectKey, List.find?, hp]

/-- Witness for C2: a singleton key list and a header `kid` naming no key. -/
theorem retrieve_matching_jwk_single_key_witness :
    retrieve_matching_jwk (.ok ⟨some [⟨some kidGlobus, some algRS256, matA⟩]⟩)
        (.ok ⟨some kidOther, some algRS512⟩)
      = .ok ⟨some kidGlobus, some algRS256, matA⟩ :=
  retrieve_matching_jwk_single_key ⟨some kidGlobus, some algRS256, matA⟩
    ⟨some kidOther, some algRS512⟩ (by decide)

/-- C3: with several keys, none matching the header's `kid`, the selector
falls back to the first key in document order whose declared `alg` equals
the header's `alg`. -/
theorem retrieve_matching_jwk_alg_fallback
    (keys : List JWK) (hdr : TokenHeader) (i : Nat) (hi : i < keys.length)
    (hmany : 1 < keys.length)
    (hnokid : ∀ key ∈ keys, ¬(truthy hdr.kid = true ∧ key.kid = hdr.kid))
    (halg : (keys.get ⟨i, hi⟩).alg = hdr.alg)
    (hfirst : ∀ j, ∀ hj : j < keys.length, j < i → (keys.get ⟨j, hj⟩).alg ≠ hdr.alg) :
    retrieve_matching_jwk (.ok ⟨some keys⟩) (.ok hdr) = .ok (keys.get ⟨i, hi⟩) := by
  have hne : keys ≠ [] := by
    intro h
    subst h
    simp at hi
  rw [retrieve_ok_eq keys hne hdr]
  have hfind1 := selectKey_no_kid_find keys hdr.kid hnokid
  have hfind2 : keys.find? (fun key => key.alg == hdr.alg) = some (keys.get ⟨i, hi⟩) := by
    apply find_first_eq
    · simp only [beq_iff_eq]
      exact halg
    · intro j hj hji
      simp only [beq_eq_false_iff_ne, ne_eq]
      exact hfirst j hj hji
  have hlen : keys.length ≠ 1 := by omega
  simp [selectKey, hfind1, hfind2, hlen]

/-- Witness for C3: two keys, header `kid` matching neither, header `alg`
`RS512` matching the second key. -/
theorem retrieve_matching_jwk_alg_fallback_witness :
    retrieve_matching_jwk
        (.ok ⟨some [⟨some kidGlobus, some algRS256, matA⟩,
                    ⟨some kidOther, some algRS512, matB⟩]⟩)
        (.ok ⟨some ("absent-kid"), some algRS512⟩)
      = .ok ⟨some kidOther, some algRS512, matB⟩ :=
  retrieve_matching_jwk_alg_fallback
    [⟨some kidGlobus, some algRS256, matA⟩, ⟨some kidOther, some algRS512, matB⟩]
    ⟨some ("absent-kid"), some algRS512⟩ 1 (by decide) (by decide) (by decide) rfl
    (by
      intro j hj hj1
      have hj0 : j = 0 := by omega
      subst hj0
      show (some algRS256 : Option String) ≠ some algRS512
      decide)

/-- C4: with several keys, no `kid` match and no `alg` match, the selector
fails with the `KeyNotFound` `SuspiciousOperation` and returns no key. -/
theorem retrieve_matching_jwk_key_not_found
    (keys : List JWK) (hdr : TokenHeader)
    (hmany : 1 < keys.length)
    (hnokid : ∀ key ∈ keys, ¬(truthy hdr.kid = true ∧ key.kid = hdr.kid))
    (hnoalg : ∀ key ∈ keys, key.alg ≠ hdr.alg) :
    retrieve_matching_jwk (.ok ⟨some keys⟩) (.ok hdr)
      = .error (.suspiciousOperation msgKeyNotFound) := by
  have hne : keys ≠ [] := by
    intro h
    subst h
    simp at hmany
  rw [retrieve_ok_eq keys hne hdr]
  have hfind1 := selectKey_no_kid_find keys hdr.kid hnokid
  have hfind2 : keys.find? (fun key => key.alg == hdr.alg) = none := by
    rw [List.find?_eq_none]
    intro key hk hp
    exact hnoalg key hk (by simpa using hp)
  have hlen : keys.length ≠ 1 := by omega
  simp [selectKey, hfind1, hfind2, hlen]

/-- Witness for C4: two keys, header naming an absent `kid` and an `alg`
declared by no key. -/
theorem retrieve_matching_jwk_key_not_found_witness :
    retrieve_matching_jwk
        (.ok ⟨some [⟨some kidGlobus, some algRS256, matA⟩,
                    ⟨some kidOther, some algRS512, matB⟩]⟩)
        (.ok ⟨some ("absent-kid"), some ("ES256")⟩)
      = .error (.suspiciousOperation msgKeyNotFound) :=
  retrieve_matching_jwk_key_not_found
    [⟨some kidGlobus, some algRS256, matA⟩, ⟨some kidOther, some algRS512, matB⟩]
    ⟨some ("absent-kid"), some ("ES256")⟩ (by decide) (by decide) (by decide)

/-- C5: when the token header carries no `alg` at all, the algorithm
fallback compares `None` against each key's absent `alg` and succeeds on
the first key that also lacks an `alg` field, rather than failing with
`KeyNotFound`. -/
theorem retrieve_matching_jwk_absent_alg_matches
    (keys : List JWK) (hdr : TokenHeader) (i : Nat) (hi : i < keys.length)
    (hmany : 1 < keys.length)
    (halgn : hdr.alg = none)
    (hnokid : ∀ key ∈ keys, ¬(truthy hdr.kid = true ∧ key.kid = hdr.kid))
    (hik : (keys.get ⟨i, hi⟩).alg = none)
    (hfirst : ∀ j, ∀ hj : j < keys.length, j < i → (keys.get ⟨j, hj⟩).alg ≠ none) :
    retrieve_matching_jwk (.ok ⟨some keys⟩) (.ok hdr) = .ok (keys.get ⟨i, hi⟩) := by
  have hne : keys ≠ [] := by
    intro h
    subst h
    simp at hi
  rw [retrieve_ok_eq keys hne hdr]
  have hfind1 := selectKey_no_kid_find keys hdr.kid hnokid
  have hfind2 : keys.find? (fun key => key.alg == hdr.alg) = some (keys.get ⟨i, hi⟩) := by
    apply find_first_eq
    · simp only [beq_iff_eq, halgn]
      exact hik
    · intro j hj hji
      simp only [beq_eq_false_iff_ne, ne_eq, halgn]
      exact hfirst j hj hji
  have hlen : keys.length ≠ 1 := by omega
  simp [selectKey, hfind1, hfind2, hlen]

/-- Witness for C5: a header with no `alg` and no matching `kid`; of two
keys, the second lacks `alg` and is returned. -/
theorem retrieve_matching_jwk_absent_alg_matches_witness :
    retrieve_matching_jwk
        (.ok ⟨some [⟨some kidGlobus, some algRS256, matA⟩,
                    ⟨some kidOther, none, matB⟩]⟩)
        (.ok ⟨none, none⟩)
      = .ok ⟨some kidOther, none, matB⟩ :=
  retrieve_matching_jwk_absent_alg_matches
    [⟨some kidGlobus, some algRS256, matA⟩, ⟨some kidOther, none, matB⟩]
    ⟨none, none⟩ 1 (by decide) (by decide) rfl (by decide) rfl
    (by
      intro j hj hj1
      have hj0 : j = 0 := by omega
      subst hj0
      show (some algRS256 : Option String) ≠ none
      decide)

/-- C6: an unparsable JWKS body, or a parsed document whose `keys` sequence
is absent or empty, makes `retrieve_matching_jwk` fail with one of the two
`KeySourceInvalid` `SuspiciousOperation` messages, for every header-decode
outcome — key selection is never reached. -/
theorem retrieve_matching_jwk_invalid_source
    (fetch : FetchResult) (hdr : HeaderResult)
    (hbad : fetch = .invalidJson ∨ ∃ doc, fetch = .ok doc ∧ doc.keys.getD [] = []) :
    ∃ m, retrieve_matching_jwk fetch hdr = .error (.suspiciousOperation m)
      ∧ (m = msgInvalidJwks ∨ m = msgNoKeys) := by
  rcases hbad with h | ⟨doc, hf, hk⟩
  · subst h
    exact ⟨msgInvalidJwks, rfl, Or.inl rfl⟩
  · subst hf
    refine ⟨msgNoKeys, ?_, Or.inr rfl⟩
    simp [retrieve_matching_jwk, hk]

/-- Witness for C6: an unparsable body fails before header decoding. -/
theorem retrieve_matching_jwk_invalid_source_witness :
    ∃ m, retrieve_matching_jwk .invalidJson .decodeError
        = .error (.suspiciousOperation m)
      ∧ (m = msgInvalidJwks ∨ m = msgNoKeys) :=
  retrieve_matching_jwk_invalid_source .invalidJson .decodeError (Or.inl rfl)

/-- C7: with `MIT_IDP_REQUIRED` enabled and no identity whose username ends
with `@mit.edu`, both `create_user` and `update_user` of the Globus backend
fail with `PermissionDenied` before building or touching any user record,
whatever the other claims (in particular a valid `email`) contain. -/
theorem globus_rejects_without_mit_identity
    (s : AuthSettings) (claims : Claims) (user : PortalUser)
    (hreq : s.mit_idp_required = true)
    (hnomit : ∀ identity ∈ claims.identity_set.getD [],
        mitSuffix.isSuffixOf (identity.username.getD []) = false) :
    globus_create_user s claims = .error (.permissionDenied msgMitRequired)
      ∧ globus_update_user s user claims = .error (.permissionDenied msgMitRequired) := by
  have hval : validate_mit_identity s claims = false := by
    simp only [validate_mit_identity, hreq, Bool.not_true, Bool.false_eq_true,
      if_false, List.any_eq_false]
    intro identity hmem hsuf
    rw [hnomit identity hmem] at hsuf
    exact Bool.false_ne_true hsuf
  constructor
  · simp [globus_create_user, hval]
  · simp [globus_update_user, hval]

/-- Witness for C7: enforcement on, one non-MIT identity, a valid `email`
claim present, and an arbitrary existing user record. -/
theorem globus_rejects_without_mit_identity_witness :
    globus_create_user ⟨true⟩
        { email := some uCnhMit, identity_set := some [{ username := some uOther }] }
      = .error (.permissionDenied msgMitRequired)
    ∧ globus_update_user ⟨true⟩
        { username := uCnh, email := some uCnhMit,
          first_name := [], last_name := [], is_active := true }
        { email := some uCnhMit, identity_set := some [{ username := some uOther }] }
      = .error (.permissionDenied msgMitRequired) :=
  globus_rejects_without_mit_identity ⟨true⟩
    { email := some uCnhMit, identity_set := some [{ username := some uOther }] }
    { username := uCnh, email := some uCnhMit,
      first_name := [], last_name := [], is_active := true }
    rfl (by decide)

-- Lemmas about `pySplit`, for the username-stem claim.

/-- `pySplit` never returns an empty segment list. -/
theorem pySplit_ne_nil (sep : Char) : ∀ s : Str, pySplit sep s ≠ [] := by
  intro s
  cases s with
  | nil => simp [pySplit]
  | cons c cs =>
    simp only [pySplit]
    split
    · simp
    · split
      · simp
      · simp

/-- The first segment of `pySplit` is the prefix before the first
occurrence of the separator. -/
theorem pySplit_headD (sep : Char) :
    ∀ s : Str, (pySplit sep s).headD [] = s.takeWhile (fun c => c != sep) := by
  intro s
  induction s with
  | nil => simp [pySplit]
  | cons c cs ih =>
    by_cases hc : c = sep
    · subst hc
      simp [pySplit, List.takeWhile_cons]
    · have hne := pySplit_ne_nil sep cs
      cases hps : pySplit sep cs with
      | nil => exact absurd hps hne
      | cons s0 rest =>
        have hs0 : s0 = cs.takeWhile (fun c => c != sep) := by
          have h2 := ih
          rw [hps] at h2
          simpa using h2
        have hcne : (c != sep) = true := by simp [hc]
        simp [pySplit, hc, hps, List.takeWhile_cons, hcne, hs0]

/-- Any string containing `sep` splits into the prefix before the first
`sep` (all of whose characters differ from `sep`) and the rest. -/
theorem takeWhile_decomp (sep : Char) :
    ∀ e : Str, sep ∈ e → ∃ post, e = e.takeWhile (fun c => c != sep) ++ sep :: post := by
  intro e
  induction e with
  | nil => intro h; simp at h
  | cons c cs ih =>
    intro h
    by_cases hc : c = sep
    · subst hc
      refine ⟨cs, ?_⟩
      simp [List.takeWhile_cons]
    · have hmem : sep ∈ cs := by
        rcases List.mem_cons.mp h with h1 | h2
        · exact absurd h1.symm hc
        · exact h2
      rcases ih hmem with ⟨post, hpost⟩
      refine ⟨post, ?_⟩
      have hcne : (c != sep) = true := by simp [hc]
      simp only [List.takeWhile_cons, hcne, if_true, List.cons_append]
      exact congrArg (c :: ·) hpost

/-- On strings containing `@`, the username stem is the prefix before the
first `@`. -/
theorem get_username_of_mem {e : Str} (h : '@' ∈ e) :
    get_username_from_email e = e.takeWhile (fun c => c != '@') := by
  have hne : e ≠ [] := by
    intro hnil
    subst hnil
    simp at h
  simp only [get_username_from_email, if_pos (And.intro hne h)]
  exact pySplit_headD '@' e

/-- C8: `get_username_from_email` returns, for a string containing `@`, the
prefix of the string before its first `@` (the returned stem contains no
`@` and the input is the stem, an `@`, and a remainder); for a non-empty
string without `@`, the input unchanged; in particular `"cnh@mit.edu"`
yields `"cnh"` and `"noatsign"` is returned unchanged. -/
theorem get_username_from_email_spec :
    (∀ e : Str, '@' ∈ e →
        ∃ post, e = get_username_from_email e ++ '@' :: post
          ∧ '@' ∉ get_username_from_email e)
    ∧ (∀ e : Str, e ≠ [] → '@' ∉ e → get_username_from_email e = e)
    ∧ get_username_from_email uCnhMit = uCnh
    ∧ get_username_from_email uNoAt = uNoAt := by
  refine ⟨?_, ?_, by decide, by decide⟩
  · intro e h
    rcases takeWhile_decomp '@' e h with ⟨post, hpost⟩
    refine ⟨post, ?_, ?_⟩
    · rw [get_username_of_mem h]
      exact hpost
    · rw [get_username_of_mem h]
      intro hmem
      have hp := List.mem_takeWhile_imp hmem
      simp at hp
  · intro e hne h
    have hcond : ¬(e ≠ [] ∧ '@' ∈ e) := fun hc => h hc.2
    simp only [get_username_from_email, if_neg hcond]

/-- Witness for C8: instantiated at `"cnh@mit.edu"` and `"noatsign"`. -/
theorem get_username_from_email_spec_witness :
    (∃ post, uCnhMit = get_username_from_email uCnhMit ++ '@' :: post
       ∧ '@' ∉ get_username_from_email uCnhMit)
    ∧ get_username_from_email uNoAt = uNoAt :=
  ⟨get_username_from_email_spec.1 uCnhMit (by decide),
   get_username_from_email_spec.2.1 uNoAt (by decide) (by decide)⟩

/-- C9: `extract_mit_eppn` returns the username of the first `identity_set`
record ending in `@mit.edu`; with no such record it falls back to the
`preferred_username` claim and then to the `email` claim; on the two-record
example with a foreign identity first it picks `"cnh@mit.edu"`. -/
theorem extract_mit_eppn_spec :
    (∀ (claims : Claims) (i : Nat) (hi : i < (claims.identity_set.getD []).length),
        mitSuffix.isSuffixOf (((claims.identity_set.getD []).get ⟨i, hi⟩).username.getD [])
            = true →
        (∀ j, ∀ hj : j < (claims.identity_set.getD []).length, j < i →
            mitSuffix.isSuffixOf
                (((claims.identity_set.getD []).get ⟨j, hj⟩).username.getD []) = false) →
        extract_mit_eppn claims
          = some (((claims.identity_set.getD []).get ⟨i, hi⟩).username.getD []))
    ∧ (∀ (claims : Claims) (p : Str),
        (∀ identity ∈ claims.identity_set.getD [],
            mitSuffix.isSuffixOf (identity.username.getD []) = false) →
        claims.preferred_username = some p →
        extract_mit_eppn claims = some p)
    ∧ (∀ claims : Claims,
        (∀ identity ∈ claims.identity_set.getD [],
            mitSuffix.isSuffixOf (identity.username.getD []) = false) →
        claims.preferred_username = none →
        extract_mit_eppn claims = claims.email)
    ∧ extract_mit_eppn
        { identity_set := some [{ username := some uOther }, { username := some uCnhMit }] }
      = some uCnhMit := by
  refine ⟨?_, ?_, ?_, by decide⟩
  · intro claims i hi hmit hfirst
    have hfind := find_first_eq
      (fun identity => mitSuffix.isSuffixOf (identity.username.getD []))
      (claims.identity_set.getD []) i hi hmit hfirst
    simp [extract_mit_eppn, hfind]
  · intro claims p hnone hp
    have hfind : (claims.identity_set.getD []).find?
        (fun identity => mitSuffix.isSuffixOf (identity.username.getD [])) = none := by
      rw [List.find?_eq_none]
      intro x hx hsuf
      rw [hnone x hx] at hsuf
      exact Bool.false_ne_true hsuf
    simp [extract_mit_eppn, hfind, hp]
  · intro claims hnone hp
    have hfind : (claims.identity_set.getD []).find?
        (fun identity => mitSuffix.isSuffixOf (identity.username.getD [])) = none := by
      rw [List.find?_eq_none]
      intro x hx hsuf
      rw [hnone x hx] at hsuf
      exact Bool.false_ne_true hsuf
    simp [extract_mit_eppn, hfind, hp]

/-- Witness for C9: the claim's two-record example, matched at index 1. -/
theorem extract_mit_eppn_spec_witness :
    extract_mit_eppn
        { identity_set := some [{ username := some uOther }, { username := some uCnhMit }] }
      = some uCnhMit := by
  have h := extract_mit_eppn_spec.1
    { identity_set := some [{ username := some uOther }, { username := some uCnhMit }] }
    1 (by decide) (by decide)
    (by
      intro j hj hj1
      have hj0 : j = 0 := by omega
      subst hj0
      show mitSuffix.isSuffixOf uOther = false
      decide)
  simpa using h

/-- A concrete stored user for the lookup witness. -/
def dbUser0 : PortalUser :=
  { username := uCnh, email := some uCnhMit,
    first_name := [], last_name := [], is_active := true }

/-- C10: user lookup by claims first filters on the username derived from
the email claim; only when that match set is empty does it filter on exact
email; it returns the first non-empty match set, the (possibly empty) email
match set otherwise, and the empty set when the email claim is absent or
empty. -/
theorem filter_users_by_claims_spec :
    (∀ (db : List PortalUser) (claims : Claims) (e : Str),
        claims.email = some e → e ≠ [] →
        ((db.filter (fun u => u.username == get_username_from_email e) ≠ [] →
            filter_users_by_claims db claims
              = db.filter (fun u => u.username == get_username_from_email e))
          ∧ (db.filter (fun u => u.username == get_username_from_email e) = [] →
              filter_users_by_claims db claims
                = db.filter (fun u => u.email == some e))))
    ∧ (∀ (db : List PortalUser) (claims : Claims),
        truthyStr claims.email = false → filter_users_by_claims db claims = []) := by
  constructor
  · intro db claims e he hne
    have hemp : e.isEmpty = false := by
      cases e with
      | nil => exact absurd rfl hne
      | cons a t => rfl
    constructor
    · intro hU
      simp [filter_users_by_claims, he, truthyStr, hemp, hU]
    · intro hU
      by_cases hE : db.filter (fun u => u.email == some e) = []
      · simp [filter_users_by_claims, he, truthyStr, hemp, hU, hE]
      · simp [filter_users_by_claims, he, truthyStr, hemp, hU, hE]
  · intro db claims ht
    simp [filter_users_by_claims, ht]

/-- Witness for C10: a single stored user found by the username derived
from the email claim. -/
theorem filter_users_by_claims_spec_witness :
    filter_users_by_claims [dbUser0] { email := some uCnhMit }
      = [dbUser0].filter (fun u => u.username == get_username_from_email uCnhMit) :=
  (filter_users_by_claims_spec.1 [dbUser0] { email := some uCnhMit } uCnhMit rfl
    (by decide)).1 (by decide)
